import Mathlib

/-!
Verification development for the CloudFormation stack manager
(`cloudformationStackManager.UpsertStack` / `AwaitFinalStatus` in the
`common` package) and the pipeline revision lookup
(`getRevisionFromCodePipeline` in `common/pipeline.go`).

The Go code is shallowly embedded: the backend (AWS SDK) is modelled as
explicit response data handed to the functions, and a Go panic (nil
pointer dereference or index out of range) is modelled as `Option.none`
in the result type.
-/

namespace StackMgr

/-- One `DescribeStacks` call outcome, as seen by the Go code:
`err` models a non-nil `error` return, `respNil` models a nil response
pointer, and `Stacks` is the list of `StackStatus` strings of the stacks
in `resp.Stacks` (one entry per stack). -/
structure DescribeResult where
  err : Bool
  respNil : Bool
  Stacks : List String
deriving DecidableEq, Repr

/-- The statuses of the first `case` group of the `switch` in
`AwaitFinalStatus` (create-family in progress: wait for create). -/
def createInProgressStatuses : List String :=
  ["REVIEW_IN_PROGRESS", "CREATE_IN_PROGRESS", "ROLLBACK_IN_PROGRESS"]

/-- The status of the second `case` group (delete in progress: wait for
delete). -/
def deleteInProgressStatuses : List String :=
  ["DELETE_IN_PROGRESS"]

/-- The statuses of the third `case` group (update-family in progress,
including the two cleanup sub-phases: wait for update). -/
def updateInProgressStatuses : List String :=
  ["UPDATE_IN_PROGRESS", "UPDATE_ROLLBACK_IN_PROGRESS",
   "UPDATE_COMPLETE_CLEANUP_IN_PROGRESS",
   "UPDATE_ROLLBACK_COMPLETE_CLEANUP_IN_PROGRESS"]

/-- The statuses of the explicit no-op `case` group of the `switch`
(terminal statuses: no further waiting). -/
def terminalStatuses : List String :=
  ["CREATE_FAILED", "CREATE_COMPLETE", "ROLLBACK_FAILED", "ROLLBACK_COMPLETE",
   "DELETE_FAILED", "DELETE_COMPLETE", "UPDATE_COMPLETE",
   "UPDATE_ROLLBACK_FAILED", "UPDATE_ROLLBACK_COMPLETE"]

/-- A status is Transitional when it falls in one of the three wait
`case` groups of the `switch` in `AwaitFinalStatus`. -/
def isTransitional (s : String) : Bool :=
  createInProgressStatuses.contains s
    || deleteInProgressStatuses.contains s
    || updateInProgressStatuses.contains s

/-- A status is Terminal when it is in the no-op `case` group. -/
def isTerminal (s : String) : Bool :=
  terminalStatuses.contains s

/-- The Go expression `*resp.Stacks[0].StackStatus`: dereferencing a nil
response pointer or indexing an empty stack list panics (`none`);
otherwise the first stack status is produced. -/
def derefFirstStatus (r : DescribeResult) : Option String :=
  if r.respNil then none else r.Stacks.head?

/-- Whether the guard on line 139 of the source holds for the initial
query: `err == nil && resp != nil && len(resp.Stacks) == 1`. -/
def describeOk (r : DescribeResult) : Bool :=
  !r.err && !r.respNil && r.Stacks.length == 1

/-- `AwaitFinalStatus`, embedded over the outcome `q1` of the initial
`DescribeStacks` call and the outcome `q2` of the re-query issued after a
wait (used only when the initial status is Transitional).  Result `none`
models a panic; `some s` models returning status string `s` (the empty
string meaning the stack is absent).  The `switch` has no `default`, so a
status outside all `case` groups falls through like a terminal one, and
after a re-query the guard is not re-checked before the final
dereference `*resp.Stacks[0].StackStatus`. -/
def AwaitFinalStatus (q1 q2 : DescribeResult) : Option String :=
  if describeOk q1 then
    match q1.Stacks.head? with
    | none => none
    | some s0 =>
      if isTransitional s0 then
        derefFirstStatus q2
      else
        derefFirstStatus q1
  else
    some ""

/-- A CloudFormation parameter as built by `buildStackParameters`
(`ParameterKey` / `ParameterValue`). -/
structure Parameter where
  parameterKey : String
  parameterValue : String
deriving DecidableEq, Repr

/-- `buildStackParameters`: the input list is the entries of the Go map
`stackParameters` in the order the runtime iterates them (`for key,
value := range ...`); Go does not fix that order.  One `Parameter` is
appended per entry, in iteration order. -/
def buildStackParameters (stackParameters : List (String × String)) : List Parameter :=
  stackParameters.map (fun kv => ⟨kv.1, kv.2⟩)

/-- An AWS error value as inspected by `UpsertStack`: `isAwsErr` is
whether the `err.(awserr.Error)` type assertion succeeds, and `code` /
`message` are the values of `Code()` / `Message()` when it does. -/
structure AwsError where
  isAwsErr : Bool
  code : String
  message : String
deriving DecidableEq, Repr

/-- The test on line 118 of the source: the error is an `awserr.Error`
with code `ValidationError` and exactly the no-op message. -/
def isNoUpdatesError (e : AwsError) : Bool :=
  e.isAwsErr && e.code == "ValidationError"
    && e.message == "No updates are to be performed."

/-- A backend API call made directly by the body of `UpsertStack`
(the describes and waits inside `AwaitFinalStatus` are attributed to
that function and are not listed here). -/
inductive StackAction where
  | createStack (stackName templateBody : String)
      (parameters : List Parameter) (capabilities : List String)
  | waitUntilStackExists (stackName : String)
  | updateStack (stackName templateBody : String)
      (parameters : List Parameter) (capabilities : List String)
deriving DecidableEq, Repr

/-- Whether an action is a `CreateStack` submission. -/
def isCreateAction : StackAction → Bool
  | .createStack _ _ _ _ => true
  | _ => false

/-- Whether an action is an `UpdateStack` submission. -/
def isUpdateAction : StackAction → Bool
  | .updateStack _ _ _ _ => true
  | _ => false

/-- Whether an action is a wait primitive. -/
def isWaitAction : StackAction → Bool
  | .waitUntilStackExists _ => true
  | _ => false

/-- The backend behaviour for one `UpsertStack` invocation: the two
describe outcomes consumed by `AwaitFinalStatus`, and the error results
of the `CreateStack` / `UpdateStack` submissions (`none` meaning nil
error, i.e. success). -/
structure StackBackend where
  describe1 : DescribeResult
  describe2 : DescribeResult
  createResult : Option AwsError
  updateResult : Option AwsError
deriving DecidableEq, Repr

/-- The fixed capability list passed on both paths
(`cloudformation.CapabilityCapabilityIam`). -/
def upsertCapabilities : List String := ["CAPABILITY_IAM"]

/-- `UpsertStack`, embedded: resolves the status through
`AwaitFinalStatus`, then branches on `stackStatus == ""` (create path)
versus any other status (update path).  Result `none` models a panic
propagating out of `AwaitFinalStatus`; otherwise the result pairs the
returned Go error (`none` = nil = success) with the list of backend
calls issued by the body, in order.  On the update path an error equal
to the no-op signature is converted to success; the create path waits
for stack existence after a successful submission and the update path
never waits. -/
def UpsertStack (stackName templateBody : String)
    (stackParameters : List (String × String)) (b : StackBackend) :
    Option (Option AwsError × List StackAction) :=
  match AwaitFinalStatus b.describe1 b.describe2 with
  | none => none
  | some stackStatus =>
    let parameters := buildStackParameters stackParameters
    if stackStatus == "" then
      match b.createResult with
      | some e =>
        some (some e, [.createStack stackName templateBody parameters upsertCapabilities])
      | none =>
        some (none, [.createStack stackName templateBody parameters upsertCapabilities,
                     .waitUntilStackExists stackName])
    else
      match b.updateResult with
      | some e =>
        if isNoUpdatesError e then
          some (none, [.updateStack stackName templateBody parameters upsertCapabilities])
        else
          some (some e, [.updateStack stackName templateBody parameters upsertCapabilities])
      | none =>
        some (none, [.updateStack stackName templateBody parameters upsertCapabilities])

end StackMgr

namespace Pipeline

/-- One `ActionState` of a pipeline stage, as read by
`getRevisionFromCodePipeline`: the action name, and `currentRevision`
modelling the `CurrentRevision` pointer — `none` is a nil pointer (the
action has no current revision) and `some rid` is a revision with
`RevisionId` equal to `rid`. -/
structure ActionState where
  actionName : String
  currentRevision : Option String
deriving DecidableEq, Repr

/-- One `StageState` of the pipeline: its ordered action states. -/
structure StageState where
  actionStates : List ActionState
deriving DecidableEq, Repr

/-- The inner loop of `getRevisionFromCodePipeline` over one stage:
`some (some rid)` models `return rid, nil`; `some none` models falling
off the loop; `none` models the panic of dereferencing a nil
`CurrentRevision` on an action named Source. -/
def scanActions : List ActionState → Option (Option String)
  | [] => some none
  | a :: rest =>
    if a.actionName == "Source" then
      match a.currentRevision with
      | none => none
      | some rid => some (some rid)
    else
      scanActions rest

/-- The outer loop of `getRevisionFromCodePipeline` over all stages. -/
def scanStages : List StageState → Option (Option String)
  | [] => some none
  | st :: rest =>
    match scanActions st.actionStates with
    | none => none
    | some (some rid) => some (some rid)
    | some none => scanStages rest

/-- `getRevisionFromCodePipeline`, embedded over the `StageStates` of a
successful `GetPipelineState` response.  Result `none` models a panic;
`some (Except.ok rid)` models `return rid, nil`; `some (Except.error m)`
models the final not-found error. -/
def getRevisionFromCodePipeline (pipelineName : String)
    (stageStates : List StageState) : Option (Except String String) :=
  match scanStages stageStates with
  | none => none
  | some (some rid) => some (Except.ok rid)
  | some none =>
    some (Except.error ("Can not locate revision from CodePipeline: " ++ pipelineName))

/-- All action states of the response, in scan order. -/
def allActions (stageStates : List StageState) : List ActionState :=
  stageStates.flatMap (fun st => st.actionStates)

end Pipeline

-- scratch sanity checks
example : StackMgr.AwaitFinalStatus ⟨false, false, ["CREATE_COMPLETE"]⟩
    ⟨false, false, []⟩ = some "CREATE_COMPLETE" := by decide
example : StackMgr.AwaitFinalStatus ⟨true, false, []⟩ ⟨false, false, []⟩ = some "" := by
  decide
example : StackMgr.AwaitFinalStatus ⟨false, false, ["CREATE_IN_PROGRESS"]⟩
    ⟨false, false, []⟩ = none := by decide
example : Pipeline.getRevisionFromCodePipeline "p"
    [⟨[⟨"Source", some "r1"⟩]⟩] = some (Except.ok "r1") := rfl
example : Pipeline.getRevisionFromCodePipeline "p"
    [⟨[⟨"Source", none⟩]⟩] = none := rfl
example : Pipeline.getRevisionFromCodePipeline "p"
    [⟨[⟨"Build", some "r1"⟩]⟩]
    = some (Except.error "Can not locate revision from CodePipeline: p") := rfl

namespace StackMgr

/-- Helper: the head of a list is a member. -/
theorem mem_of_head_eq_some {α : Type} {l : List α} {a : α}
    (h : l.head? = some a) : a ∈ l := by
  cases l with
  | nil => cases h
  | cons x xs =>
    simp only [List.head?_cons, Option.some.injEq] at h
    exact h ▸ List.mem_cons_self x xs

/-- C1: on the update path, a submission failure that is an AWS error
with code ValidationError and exactly the message
"No updates are to be performed." makes `UpsertStack` return success
(nil error), not failure. -/
theorem upsert_noop_update_is_success
    (stackName templateBody : String) (ps : List (String × String))
    (b : StackBackend) (s : String) (e : AwsError)
    (hs : AwaitFinalStatus b.describe1 b.describe2 = some s) (hne : s ≠ "")
    (he : b.updateResult = some e)
    (ha : e.isAwsErr = true) (hc : e.code = "ValidationError")
    (hm : e.message = "No updates are to be performed.") :
    UpsertStack stackName templateBody ps b
      = some (none, [.updateStack stackName templateBody
          (buildStackParameters ps) upsertCapabilities]) := by
  have hb : (s == "") = false := beq_eq_false_iff_ne.mpr hne
  have hno : isNoUpdatesError e = true := by
    simp [isNoUpdatesError, ha, hc, hm]
  simp [UpsertStack, hs, hb, he, hno]

/-- Witness for C1 at a concrete backend (Scenario B shape). -/
theorem upsert_noop_update_is_success_witness :
    UpsertStack "demo-stack" "tpl" [("Env", "dev")]
      ⟨⟨false, false, ["UPDATE_COMPLETE"]⟩, ⟨false, false, []⟩, none,
        some ⟨true, "ValidationError", "No updates are to be performed."⟩⟩
      = some (none, [.updateStack "demo-stack" "tpl"
          (buildStackParameters [("Env", "dev")]) upsertCapabilities]) :=
  upsert_noop_update_is_success "demo-stack" "tpl" [("Env", "dev")] _
    "UPDATE_COMPLETE" ⟨true, "ValidationError", "No updates are to be performed."⟩
    (by decide) (by decide) rfl rfl rfl rfl

/-- C3: `UpsertStack` branches on the resolved status: if the Status
Resolver returns the empty string, the body issues exactly one create
submission and no update submission; if it returns any non-empty status,
exactly one update submission and no create submission. -/
theorem upsert_branches_on_resolved_status
    (stackName templateBody : String) (ps : List (String × String))
    (b : StackBackend) (s : String)
    (hs : AwaitFinalStatus b.describe1 b.describe2 = some s) :
    (s = "" → ∃ out, UpsertStack stackName templateBody ps b = some out
        ∧ out.2.countP isCreateAction = 1 ∧ out.2.countP isUpdateAction = 0)
    ∧ (s ≠ "" → ∃ out, UpsertStack stackName templateBody ps b = some out
        ∧ out.2.countP isUpdateAction = 1 ∧ out.2.countP isCreateAction = 0) := by
  constructor
  · intro hse
    subst hse
    cases hc : b.createResult with
    | some e =>
      refine ⟨(some e, [.createStack stackName templateBody
          (buildStackParameters ps) upsertCapabilities]), ?_, ?_, ?_⟩
      · simp [UpsertStack, hs, hc]
      · simp [List.countP_cons, List.countP_nil, isCreateAction]
      · simp [List.countP_cons, List.countP_nil, isUpdateAction]
    | none =>
      refine ⟨(none, [.createStack stackName templateBody
          (buildStackParameters ps) upsertCapabilities,
          .waitUntilStackExists stackName]), ?_, ?_, ?_⟩
      · simp [UpsertStack, hs, hc]
      · simp [List.countP_cons, List.countP_nil, isCreateAction]
      · simp [List.countP_cons, List.countP_nil, isUpdateAction]
  · intro hne
    have hb : (s == "") = false := beq_eq_false_iff_ne.mpr hne
    cases hu : b.updateResult with
    | some e =>
      by_cases hno : isNoUpdatesError e = true
      · refine ⟨(none, [.updateStack stackName templateBody
            (buildStackParameters ps) upsertCapabilities]), ?_, ?_, ?_⟩
        · simp [UpsertStack, hs, hb, hu, hno]
        · simp [List.countP_cons, List.countP_nil, isUpdateAction]
        · simp [List.countP_cons, List.countP_nil, isCreateAction]
      · refine ⟨(some e, [.updateStack stackName templateBody
            (buildStackParameters ps) upsertCapabilities]), ?_, ?_, ?_⟩
        · simp [UpsertStack, hs, hb, hu, hno]
        · simp [List.countP_cons, List.countP_nil, isUpdateAction]
        · simp [List.countP_cons, List.countP_nil, isCreateAction]
    | none =>
      refine ⟨(none, [.updateStack stackName templateBody
          (buildStackParameters ps) upsertCapabilities]), ?_, ?_, ?_⟩
      · simp [UpsertStack, hs, hb, hu]
      · simp [List.countP_cons, List.countP_nil, isUpdateAction]
      · simp [List.countP_cons, List.countP_nil, isCreateAction]

/-- Witness for C3 on the create path (stack absent). -/
theorem upsert_branches_on_resolved_status_witness :
    ∃ out, UpsertStack "demo-stack" "tpl" [("Env", "dev")]
        ⟨⟨true, false, []⟩, ⟨false, false, []⟩, none, none⟩ = some out
      ∧ out.2.countP isCreateAction = 1 ∧ out.2.countP isUpdateAction = 0 :=
  (upsert_branches_on_resolved_status "demo-stack" "tpl" [("Env", "dev")]
    ⟨⟨true, false, []⟩, ⟨false, false, []⟩, none, none⟩ "" (by decide)).1 rfl

end StackMgr

namespace StackMgr

/-- C4: a create or update submission failure whose error does not match
the no-op signature (an awserr with code ValidationError and exactly the
no-op message) makes `UpsertStack` return failure carrying the original
error value unchanged. -/
theorem upsert_error_passthrough
    (stackName templateBody : String) (ps : List (String × String))
    (b : StackBackend) (s : String) (e : AwsError)
    (hs : AwaitFinalStatus b.describe1 b.describe2 = some s) :
    (s = "" → b.createResult = some e →
      UpsertStack stackName templateBody ps b
        = some (some e, [.createStack stackName templateBody
            (buildStackParameters ps) upsertCapabilities]))
    ∧ (s ≠ "" → b.updateResult = some e → isNoUpdatesError e = false →
      UpsertStack stackName templateBody ps b
        = some (some e, [.updateStack stackName templateBody
            (buildStackParameters ps) upsertCapabilities])) := by
  constructor
  · intro hse hc
    subst hse
    simp [UpsertStack, hs, hc]
  · intro hne hu hno
    have hb : (s == "") = false := beq_eq_false_iff_ne.mpr hne
    simp [UpsertStack, hs, hb, hu, hno]

/-- Witness for C4: Scenario D, an update failing with
code ValidationError but a different message is returned as that
failure. -/
theorem upsert_error_passthrough_witness :
    UpsertStack "demo-stack" "tpl" [("Env", "dev")]
      ⟨⟨false, false, ["UPDATE_COMPLETE"]⟩, ⟨false, false, []⟩, none,
        some ⟨true, "ValidationError", "Parameter X is required"⟩⟩
      = some (some ⟨true, "ValidationError", "Parameter X is required"⟩,
          [.updateStack "demo-stack" "tpl"
            (buildStackParameters [("Env", "dev")]) upsertCapabilities]) :=
  (upsert_error_passthrough "demo-stack" "tpl" [("Env", "dev")]
    ⟨⟨false, false, ["UPDATE_COMPLETE"]⟩, ⟨false, false, []⟩, none,
      some ⟨true, "ValidationError", "Parameter X is required"⟩⟩
    "UPDATE_COMPLETE" ⟨true, "ValidationError", "Parameter X is required"⟩
    (by decide)).2 (by decide) rfl (by decide)

/-- C5: if the initial describe query fails (non-nil error), returns a
nil response, or returns zero matching stacks, `AwaitFinalStatus`
returns the empty string (Absent) and never propagates the query
error. -/
theorem awaitFinalStatus_query_failure_absent (q1 q2 : DescribeResult)
    (h : q1.err = true ∨ q1.respNil = true ∨ q1.Stacks = []) :
    AwaitFinalStatus q1 q2 = some "" := by
  have hok : describeOk q1 = false := by
    rcases h with h | h | h <;> simp [describeOk, h]
  simp [AwaitFinalStatus, hok]

/-- Witness for C5 at a failing describe call. -/
theorem awaitFinalStatus_query_failure_absent_witness :
    AwaitFinalStatus ⟨true, false, []⟩ ⟨false, false, ["CREATE_COMPLETE"]⟩
      = some "" :=
  awaitFinalStatus_query_failure_absent ⟨true, false, []⟩
    ⟨false, false, ["CREATE_COMPLETE"]⟩ (Or.inl rfl)

/-- C6: on successful submission the two paths wait asymmetrically: the
create path issues exactly one wait, the stack-exists wait, after its
create submission, while the update path issues no wait at all. -/
theorem upsert_wait_asymmetry
    (stackName templateBody : String) (ps : List (String × String))
    (b : StackBackend) (s : String)
    (hs : AwaitFinalStatus b.describe1 b.describe2 = some s) :
    (s = "" → b.createResult = none →
      UpsertStack stackName templateBody ps b
        = some (none, [.createStack stackName templateBody
            (buildStackParameters ps) upsertCapabilities,
            .waitUntilStackExists stackName])
      ∧ List.countP isWaitAction
          [StackAction.createStack stackName templateBody
            (buildStackParameters ps) upsertCapabilities,
           StackAction.waitUntilStackExists stackName] = 1)
    ∧ (s ≠ "" → b.updateResult = none →
      UpsertStack stackName templateBody ps b
        = some (none, [.updateStack stackName templateBody
            (buildStackParameters ps) upsertCapabilities])
      ∧ List.countP isWaitAction
          [StackAction.updateStack stackName templateBody
            (buildStackParameters ps) upsertCapabilities] = 0) := by
  constructor
  · intro hse hc
    subst hse
    constructor
    · simp [UpsertStack, hs, hc]
    · simp [List.countP_cons, List.countP_nil, isWaitAction]
  · intro hne hu
    have hb : (s == "") = false := beq_eq_false_iff_ne.mpr hne
    constructor
    · simp [UpsertStack, hs, hb, hu]
    · simp [List.countP_cons, List.countP_nil, isWaitAction]

/-- Witness for C6 on the create path. -/
theorem upsert_wait_asymmetry_witness :
    UpsertStack "demo-stack" "tpl" [("Env", "dev")]
      ⟨⟨false, false, []⟩, ⟨false, false, []⟩, none, none⟩
      = some (none, [.createStack "demo-stack" "tpl"
          (buildStackParameters [("Env", "dev")]) upsertCapabilities,
          .waitUntilStackExists "demo-stack"])
      ∧ List.countP isWaitAction
          [StackAction.createStack "demo-stack" "tpl"
            (buildStackParameters [("Env", "dev")]) upsertCapabilities,
           StackAction.waitUntilStackExists "demo-stack"] = 1 :=
  (upsert_wait_asymmetry "demo-stack" "tpl" [("Env", "dev")]
    ⟨⟨false, false, []⟩, ⟨false, false, []⟩, none, none⟩ "" (by decide)).1 rfl rfl

end StackMgr

namespace StackMgr

/-- C2 counterexample: the post-wait re-query is returned without any
terminality check, so when both the initial query and the re-query
observe CREATE_IN_PROGRESS (the wait primitive having given up without
effect), `AwaitFinalStatus` returns a Transitional status, contradicting
the claim that the result is always Terminal or Absent. -/
theorem awaitFinalStatus_returns_transitional :
    AwaitFinalStatus ⟨false, false, ["CREATE_IN_PROGRESS"]⟩
        ⟨false, false, ["CREATE_IN_PROGRESS"]⟩ = some "CREATE_IN_PROGRESS"
      ∧ isTransitional "CREATE_IN_PROGRESS" = true
      ∧ isTerminal "CREATE_IN_PROGRESS" = false
      ∧ "CREATE_IN_PROGRESS" ≠ "" := by
  refine ⟨by decide, by decide, by decide, by decide⟩

/-- C2 amended: provided the backend only ever reports documented status
values (each observed status is Transitional or Terminal) and the
post-wait re-query observes only Terminal statuses, every status value
returned by `AwaitFinalStatus` is Terminal or Absent (the empty string),
never Transitional. -/
theorem awaitFinalStatus_terminal_or_absent
    (q1 q2 : DescribeResult) (v : String)
    (h1 : ∀ s ∈ q1.Stacks, isTransitional s = true ∨ isTerminal s = true)
    (h2 : ∀ s ∈ q2.Stacks, isTerminal s = true)
    (hv : AwaitFinalStatus q1 q2 = some v) :
    isTerminal v = true ∨ v = "" := by
  unfold AwaitFinalStatus at hv
  by_cases hok : describeOk q1 = true
  · rw [if_pos hok] at hv
    cases hh : q1.Stacks.head? with
    | none => rw [hh] at hv; cases hv
    | some s0 =>
      rw [hh] at hv
      have hv2 : (if isTransitional s0 = true then derefFirstStatus q2
          else derefFirstStatus q1) = some v := hv
      clear hv
      by_cases ht : isTransitional s0 = true
      · rw [if_pos ht] at hv2
        unfold derefFirstStatus at hv2
        split at hv2
        · cases hv2
        · exact Or.inl (h2 v (mem_of_head_eq_some hv2))
      · rw [if_neg ht] at hv2
        unfold derefFirstStatus at hv2
        split at hv2
        · cases hv2
        · have hv0 : v = s0 := by rw [hh] at hv2; cases hv2; rfl
          subst hv0
          rcases h1 v (mem_of_head_eq_some hh) with h | h
          · exact absurd h ht
          · exact Or.inl h
  · rw [if_neg hok] at hv
    cases hv
    exact Or.inr rfl

/-- Witness for the amended C2 at a concrete waited resolution. -/
theorem awaitFinalStatus_terminal_or_absent_witness :
    isTerminal "CREATE_COMPLETE" = true ∨ "CREATE_COMPLETE" = "" :=
  awaitFinalStatus_terminal_or_absent ⟨false, false, ["CREATE_IN_PROGRESS"]⟩
    ⟨false, false, ["CREATE_COMPLETE"]⟩ "CREATE_COMPLETE"
    (by decide) (by decide) (by decide)

/-- C7: after a wait on a Transitional status, the re-queried response
is dereferenced (`*resp.Stacks[0].StackStatus`) without re-checking the
error / nil-response / stack-count guard, so a re-query that returns
zero stacks, or a nil response, makes `AwaitFinalStatus` panic instead
of returning a status string. -/
theorem awaitFinalStatus_panics_on_failed_requery :
    AwaitFinalStatus ⟨false, false, ["CREATE_IN_PROGRESS"]⟩
        ⟨false, false, []⟩ = none
      ∧ AwaitFinalStatus ⟨false, false, ["DELETE_IN_PROGRESS"]⟩
        ⟨true, true, []⟩ = none := by
  refine ⟨by decide, by decide⟩

/-- C10 counterexample: a post-wait re-query response holding two stacks
is not funneled to Absent — its first stack status is returned, so a
response with two or more matching stacks can produce a non-absent
result. -/
theorem awaitFinalStatus_multi_stack_requery_not_absent :
    AwaitFinalStatus ⟨false, false, ["CREATE_IN_PROGRESS"]⟩
        ⟨false, false, ["CREATE_COMPLETE", "DELETE_COMPLETE"]⟩
      = some "CREATE_COMPLETE"
      ∧ ("CREATE_COMPLETE" : String) ≠ "" := by
  refine ⟨by decide, by decide⟩

/-- C10 amended: when the initial describe response holds two or more
matching stacks, `AwaitFinalStatus` returns Absent (the empty string);
only the initial response is count-checked, the post-wait re-query
response is dereferenced without any count check. -/
theorem awaitFinalStatus_initial_multi_stack_absent
    (q1 q2 : DescribeResult) (h : 2 ≤ q1.Stacks.length) :
    AwaitFinalStatus q1 q2 = some "" := by
  have hlen : (q1.Stacks.length == 1) = false := by
    have : q1.Stacks.length ≠ 1 := by omega
    exact beq_eq_false_iff_ne.mpr this
  have hok : describeOk q1 = false := by
    simp [describeOk, hlen]
  simp [AwaitFinalStatus, hok]

/-- Witness for the amended C10 at a two-stack initial response. -/
theorem awaitFinalStatus_initial_multi_stack_absent_witness :
    AwaitFinalStatus ⟨false, false, ["CREATE_COMPLETE", "DELETE_COMPLETE"]⟩
      ⟨false, false, []⟩ = some "" :=
  awaitFinalStatus_initial_multi_stack_absent
    ⟨false, false, ["CREATE_COMPLETE", "DELETE_COMPLETE"]⟩
    ⟨false, false, []⟩ (by decide)

end StackMgr

namespace StackMgr

/-- C8 counterexample: two runs over the same parameter mapping (the two
entry lists below are permutations of each other, so they present equal
maps) can iterate the Go map in different orders and then produce
different ordered parameter sequences: the conversion is not
deterministic across runs. -/
theorem buildStackParameters_order_dependent :
    (([("A", "1"), ("B", "2")] : List (String × String)).Perm
        [("B", "2"), ("A", "1")])
      ∧ buildStackParameters [("A", "1"), ("B", "2")]
          ≠ buildStackParameters [("B", "2"), ("A", "1")] := by
  refine ⟨by decide, by decide⟩

/-- C8 amended: the conversion produces exactly one key/value pair per
map entry, and two runs over equal parameter mappings (entry lists that
are permutations of each other) produce parameter sequences that agree
up to permutation — the order itself depends on the runtime map
iteration order and is not fixed. -/
theorem buildStackParameters_entries
    (ps qs : List (String × String)) (h : ps.Perm qs) :
    (buildStackParameters ps).length = ps.length
      ∧ (buildStackParameters ps).Perm (buildStackParameters qs) :=
  ⟨List.length_map _ _, h.map _⟩

/-- Witness for the amended C8 at two iteration orders of one map. -/
theorem buildStackParameters_entries_witness :
    (buildStackParameters [("A", "1"), ("B", "2")]).length
        = ([("A", "1"), ("B", "2")] : List (String × String)).length
      ∧ (buildStackParameters [("A", "1"), ("B", "2")]).Perm
          (buildStackParameters [("B", "2"), ("A", "1")]) :=
  buildStackParameters_entries [("A", "1"), ("B", "2")]
    [("B", "2"), ("A", "1")] (by decide)

end StackMgr

namespace Pipeline

/-- Helper: no action of the list is named Source, so the inner scan
falls through. -/
theorem scanActions_no_source (as : List ActionState)
    (h : ∀ a ∈ as, a.actionName ≠ "Source") :
    scanActions as = some none := by
  induction as with
  | nil => rfl
  | cons a rest ih =>
    have hb : (a.actionName == "Source") = false :=
      beq_eq_false_iff_ne.mpr (h a (List.mem_cons_self a rest))
    simp only [scanActions, hb, Bool.false_eq_true, if_false]
    exact ih (fun x hx => h x (List.mem_cons_of_mem a hx))

/-- Helper: if every Source action of the list carries a revision and
some Source action exists, the inner scan yields a revision. -/
theorem scanActions_finds_source (as : List ActionState)
    (hclean : ∀ a ∈ as, a.actionName = "Source" → a.currentRevision ≠ none)
    (hex : ∃ a ∈ as, a.actionName = "Source") :
    ∃ rid, scanActions as = some (some rid) := by
  induction as with
  | nil =>
    obtain ⟨a, ha, _⟩ := hex
    cases ha
  | cons a rest ih =>
    by_cases hsa : a.actionName = "Source"
    · have hrev := hclean a (List.mem_cons_self a rest) hsa
      cases hr : a.currentRevision with
      | none => exact absurd hr hrev
      | some rid =>
        refine ⟨rid, ?_⟩
        have hb : (a.actionName == "Source") = true := beq_iff_eq.mpr hsa
        simp only [scanActions, hb, if_true, hr]
    · have hb : (a.actionName == "Source") = false := beq_eq_false_iff_ne.mpr hsa
      have hex2 : ∃ x ∈ rest, x.actionName = "Source" := by
        obtain ⟨x, hx, hxs⟩ := hex
        rcases List.mem_cons.mp hx with h | h
        · exact absurd hxs (h ▸ hsa)
        · exact ⟨x, h, hxs⟩
      obtain ⟨rid, hr⟩ :=
        ih (fun x hx => hclean x (List.mem_cons_of_mem a hx)) hex2
      refine ⟨rid, ?_⟩
      simp only [scanActions, hb, Bool.false_eq_true, if_false]
      exact hr

/-- Helper: the action states of a cons of stages. -/
theorem allActions_cons (st : StageState) (rest : List StageState) :
    allActions (st :: rest) = st.actionStates ++ allActions rest := by
  simp [allActions]

/-- Helper: no action of any stage is named Source, so the outer scan
falls through. -/
theorem scanStages_no_source (ss : List StageState)
    (h : ∀ a ∈ allActions ss, a.actionName ≠ "Source") :
    scanStages ss = some none := by
  induction ss with
  | nil => rfl
  | cons st rest ih =>
    have h1 : scanActions st.actionStates = some none :=
      scanActions_no_source st.actionStates (fun a ha =>
        h a (by rw [allActions_cons]; exact List.mem_append_left _ ha))
    have h2 : scanStages rest = some none :=
      ih (fun a ha =>
        h a (by rw [allActions_cons]; exact List.mem_append_right _ ha))
    simp only [scanStages, h1]
    exact h2

/-- Helper: if every Source action carries a revision and some Source
action exists in some stage, the outer scan yields a revision. -/
theorem scanStages_finds_source (ss : List StageState)
    (hclean : ∀ a ∈ allActions ss, a.actionName = "Source" →
      a.currentRevision ≠ none)
    (hex : ∃ a ∈ allActions ss, a.actionName = "Source") :
    ∃ rid, scanStages ss = some (some rid) := by
  induction ss with
  | nil =>
    obtain ⟨a, ha, _⟩ := hex
    simp [allActions] at ha
  | cons st rest ih =>
    by_cases hst : ∃ a ∈ st.actionStates, a.actionName = "Source"
    · obtain ⟨rid, hr⟩ := scanActions_finds_source st.actionStates
        (fun a ha => hclean a
          (by rw [allActions_cons]; exact List.mem_append_left _ ha)) hst
      exact ⟨rid, by simp only [scanStages, hr]⟩
    · push_neg at hst
      have h1 : scanActions st.actionStates = some none :=
        scanActions_no_source st.actionStates hst
      have hex2 : ∃ a ∈ allActions rest, a.actionName = "Source" := by
        obtain ⟨a, ha, hsa⟩ := hex
        rw [allActions_cons] at ha
        rcases List.mem_append.mp ha with h | h
        · exact absurd hsa (hst a h)
        · exact ⟨a, h, hsa⟩
      obtain ⟨rid, hr⟩ := ih
        (fun a ha => hclean a
          (by rw [allActions_cons]; exact List.mem_append_right _ ha)) hex2
      refine ⟨rid, ?_⟩
      simp only [scanStages, h1]
      exact hr

end Pipeline

namespace Pipeline

/-- C9 counterexample: a response containing an action named Source
whose `CurrentRevision` pointer is nil makes
`getRevisionFromCodePipeline` dereference that nil pointer (a panic):
it neither returns the revision of the existing Source action nor a
not-found error. -/
theorem getRevision_panics_on_nil_revision :
    (∃ a ∈ allActions [⟨[⟨"Source", none⟩]⟩], a.actionName = "Source")
      ∧ getRevisionFromCodePipeline "demo-pipeline"
          [⟨[⟨"Source", none⟩]⟩] = none := by
  refine ⟨⟨⟨"Source", none⟩, by decide, rfl⟩, rfl⟩

/-- C9 amended: provided every action named Source in the response
carries a current revision, `getRevisionFromCodePipeline` returns a
revision identifier when an action named Source exists in some stage,
and returns the not-found error exactly when no action named Source
exists in any stage; a Source action with a nil current revision instead
panics. -/
theorem getRevision_source_lookup (pipelineName : String)
    (ss : List StageState)
    (hclean : ∀ a ∈ allActions ss, a.actionName = "Source" →
      a.currentRevision ≠ none) :
    ((∃ a ∈ allActions ss, a.actionName = "Source") →
      ∃ rid, getRevisionFromCodePipeline pipelineName ss
        = some (Except.ok rid))
    ∧ ((∀ a ∈ allActions ss, a.actionName ≠ "Source") →
      getRevisionFromCodePipeline pipelineName ss
        = some (Except.error
            ("Can not locate revision from CodePipeline: " ++ pipelineName))) := by
  constructor
  · intro hex
    obtain ⟨rid, hr⟩ := scanStages_finds_source ss hclean hex
    exact ⟨rid, by simp only [getRevisionFromCodePipeline, hr]⟩
  · intro hno
    have h1 : scanStages ss = some none := scanStages_no_source ss hno
    simp only [getRevisionFromCodePipeline, h1]

/-- Witness for the amended C9: the revision of a Source action in the
second stage is found. -/
theorem getRevision_source_lookup_witness :
    ∃ rid, getRevisionFromCodePipeline "demo-pipeline"
        [⟨[⟨"Build", some "x"⟩]⟩, ⟨[⟨"Source", some "rev-1"⟩]⟩]
      = some (Except.ok rid) :=
  (getRevision_source_lookup "demo-pipeline"
    [⟨[⟨"Build", some "x"⟩]⟩, ⟨[⟨"Source", some "rev-1"⟩]⟩]
    (by decide)).1 ⟨⟨"Source", some "rev-1"⟩, by decide, rfl⟩

end Pipeline
